import Mathlib

/-!
Verification of the townhall-insights transcript pipeline.

This file gives a shallow embedding, in Lean, of the parts of the Python
source that the specification's claims are about:

* `shared/ai_enrichment.py` — `analyze_sentiment`, `extract_entities`,
  `generate_topics`, `enrich_utterances`;
* `shared/data_storage.py` — `search_utterances`, `store_utterances`,
  `get_trends` (aggregation core);
* `shared/transcript_parser.py` — the speaker-extraction rule shared by the
  primary and fallback caption parsers;
* `insights_utterances/__init__.py`, `insights_trends/__init__.py`,
  `insights_speakers/__init__.py`, `chat/__init__.py`, `upload/__init__.py`
  — request handling, aggregation and error envelopes.

External collaborators (the language-model service, the search index, blob
storage) are modelled as explicit parameters: a collaborator response is a
value of an inductive/`Option` type, where `none` stands for a raised
transport or service error caught by the corresponding `except` block.
Python floats are modelled as `ℚ`; Python strings as `String`
(`len` = number of characters, matching `String.length`).
-/

namespace Townhall

/-- `infixCheck hay pat` decides whether `pat` occurs contiguously in `hay`. -/
def infixCheck : List Char → List Char → Bool
  | hay, pat =>
    pat.isPrefixOf hay ||
      match hay with
      | [] => false
      | _ :: t => infixCheck t pat

/-- Python `pat in hay` on strings: substring containment. -/
def containsSubstr (hay pat : String) : Bool :=
  infixCheck hay.toList pat.toList

/-- ASCII lower-casing of one character. -/
def lowerChar (c : Char) : Char :=
  if c.toNat ≥ 65 ∧ c.toNat ≤ 90 then Char.ofNat (c.toNat + 32) else c

/-- Python `s.lower()` (ASCII case folding suffices for the source's data). -/
def pyLower (s : String) : String :=
  String.mk (s.toList.map lowerChar)

/-- The whitespace characters removed by Python `str.strip()`. -/
def isPySpace (c : Char) : Bool :=
  c == ' ' || c == '\t' || c == '\n' || c == '\r' || c == '\x0b' || c == '\x0c'

/-- Python `s.strip()`: remove leading and trailing whitespace. -/
def pyStrip (s : String) : String :=
  String.mk (((s.toList.dropWhile isPySpace).reverse.dropWhile isPySpace).reverse)

/-- Python `" ".join(xs)`. -/
def pyJoinSpace (xs : List String) : String :=
  String.mk (((xs.map String.toList).intersperse [' ']).flatten)

/-- Python `s.replace(" ", "")`: remove every space character. -/
def removeSpaces (s : String) : String :=
  String.mk (s.toList.filter (fun c => c ≠ ' '))

/-- Round a rational to the nearest integer, ties to even — the idealized
reading of Python `round` (banker's rounding). -/
def roundHalfEven (q : ℚ) : ℤ :=
  let f : ℤ := ⌊q⌋
  let r : ℚ := q - (f : ℚ)
  if r < 1/2 then f
  else if 1/2 < r then f + 1
  else if f % 2 = 0 then f else f + 1

/-- Python `round(q, 2)`. -/
def pyRound2 (q : ℚ) : ℚ :=
  (roundHalfEven (q * 100) : ℚ) / 100

/-! ## `AIEnrichment.analyze_sentiment` (shared/ai_enrichment.py, lines 41-71)

The collaborator's chat completion returns some text (already `.strip()`ed by
the source before inspection), or the call raises.  The source first tries
`float(sentiment_text)`; we split that outcome into the first two
constructors: `num q` is a response that parses as a float of value `q`,
`text s` is a response that does not parse as a float. -/

/-- One possible outcome of the sentiment chat-completion call. -/
inductive SentimentResponse where
  /-- The (stripped) response text parses as a float with value `q`. -/
  | num (q : ℚ)
  /-- The (stripped) response text does not parse as a float. -/
  | text (s : String)
  /-- The call raised a transport/service error. -/
  | failure
deriving Repr, DecidableEq

/-- `AIEnrichment.analyze_sentiment`.  A numeric response is clamped by
`max(-1.0, min(1.0, sentiment_score))`; a non-numeric response is read by
keyword on its lowercased text; a raised error yields `0.0`. -/
def analyze_sentiment : SentimentResponse → ℚ
  | .num q => max (-1) (min 1 q)
  | .text s =>
      let lower := pyLower s
      if containsSubstr lower "positive" then 1/2
      else if containsSubstr lower "negative" then -1/2
      else 0
  | .failure => 0

/-! ## `AIEnrichment.extract_entities` (shared/ai_enrichment.py, lines 73-103) -/

/-- The `{persons, organizations, locations, other}` structure the source
parses out of the entity-extraction response. -/
structure Entities where
  persons : List String
  organizations : List String
  locations : List String
  other : List String
deriving Repr, DecidableEq

/-- The empty entity breakdown, the source's fallback. -/
def emptyEntities : Entities :=
  ⟨[], [], [], []⟩

/-- `AIEnrichment.extract_entities`: the collaborator response either parses
as the four-list JSON structure (`some e`) or it does not / the call raised
(`none`); in the latter case the source returns four empty lists. -/
def extract_entities (resp : Option Entities) : Entities :=
  resp.getD emptyEntities

/-! ## `AIEnrichment.generate_topics` (shared/ai_enrichment.py, lines 105-135) -/

/-- The fixed `topic_keywords` table, in source (insertion) order. -/
def topic_keywords : List (String × List String) :=
  [("sugar_reduction", ["sugar", "sweetener", "low sugar", "zero sugar"]),
   ("packaging", ["packaging", "bottle", "can", "container", "rPET"]),
   ("sustainability", ["sustainable", "environment", "carbon", "recycling"]),
   ("market_trends", ["market", "trend", "consumer", "demand"]),
   ("operations", ["production", "manufacturing", "supply", "logistics"]),
   ("innovation", ["innovation", "new product", "development", "research"])]

/-- The keyword portion of `generate_topics`: lowercase the space-joined
utterance texts, include a topic when any of its keywords is a substring
(note the keyword itself is not lowercased by the source), and fall back to
`["general_discussion"]` when nothing matched. -/
def keyword_topics (utterances : List String) : List String :=
  let combined := pyLower (pyJoinSpace utterances)
  let topics := topic_keywords.filterMap
    (fun p => if p.2.any (fun k => containsSubstr combined k) then some p.1 else none)
  if topics.isEmpty then ["general_discussion"] else topics

/-- `AIEnrichment.generate_topics`.  The source first issues one embedding
call per utterance inside the `try` block; if any of those calls raises, the
`except` branch returns `["general_discussion"]` (the loop stops at the
first raising call, which has the same observable result as testing them
all).  Only when every embedding call succeeds does the keyword rule run. -/
def generate_topics (embed : String → Option (List ℚ)) (utterances : List String) :
    List String :=
  if utterances.any (fun u => (embed u).isNone) then ["general_discussion"]
  else keyword_topics utterances

/-- Modelled from the spec text of the claim, for the refinement comparison:
a topic is included iff any of its keywords occurs case-insensitively as a
substring of the concatenated texts, and the result is exactly
`["general_discussion"]` when no topic matches. -/
def spec_topic_rule (texts : List String) : List String :=
  let combined := pyJoinSpace texts
  let matched := topic_keywords.filterMap
    (fun p =>
      if p.2.any (fun k => containsSubstr (pyLower combined) (pyLower k)) then some p.1
      else none)
  if matched.isEmpty then ["general_discussion"] else matched

/-! ## The canonical utterance record

The normalized schema produced by `TranscriptParser.normalize_utterances` and
stored in the search index; `entities` is the extra key that
`AIEnrichment.enrich_utterances` adds to the record dictionary (absent —
`none` — before enrichment). -/

/-- A normalized utterance record. -/
structure Utterance where
  id : String
  meeting_id : String
  meeting_date : String
  speaker : String
  department : String
  region : String
  topics : List String
  sentiment_score : ℚ
  content : String
  start_timestamp : String
  end_timestamp : String
  duration_seconds : ℚ
  created_at : String
  updated_at : String
  entities : Option Entities
deriving Repr, DecidableEq

/-! ## `DataStorage` (shared/data_storage.py)

The search-index collaborator is a parameter: `some records` is a successful
query/upload, `none` is a raised transport error reaching the enclosing
`except` block. -/

/-- `DataStorage.search_utterances` (lines 78-114): the whole body is inside
`try`; a raised collaborator error is caught and the method returns `[]`.
(The filter-string construction only shapes the predicate handed to the
collaborator; the records it returns are the `backend` parameter here.) -/
def search_utterances (backend : Option (List Utterance)) : List Utterance :=
  match backend with
  | some records => records
  | none => []

/-- `DataStorage.store_utterances` (lines 68-76): `True` on success, a raised
collaborator error is caught and the method returns `False`. -/
def store_utterances (backend : Option Unit) : Bool :=
  match backend with
  | some _ => true
  | none => false

/-- The tail of `upload/__init__.py main` (lines 155-196): the boolean result
of `store_utterances` is logged and otherwise ignored, and the handler then
returns the success envelope with status 200. -/
def upload_store_status (storeBackend : Option Unit) : ℕ × String :=
  let _result := store_utterances storeBackend
  (200, "success")

/-! ## The insight endpoints' error envelopes (claim C4)

Each handler's catch-all `except` block builds
`{"error": "Internal server error", "details": str(e)}` with status 500;
the chat handler adds an apology `answer` field.  Stack traces are written
to the log only (`logging.error`), never to the body. -/

/-- The common error body: `e` is `str(e)`, the exception message. -/
def error_envelope (e : String) : List (String × String) :=
  [("error", "Internal server error"), ("details", e)]

/-- `insights_utterances/__init__.py` catch-all response (lines 101-107). -/
def utterances_error_response (e : String) : ℕ × List (String × String) :=
  (500, error_envelope e)

/-- `insights_trends/__init__.py` catch-all response (lines 72-78). -/
def trends_error_response (e : String) : ℕ × List (String × String) :=
  (500, error_envelope e)

/-- `insights_speakers/__init__.py` catch-all response (lines 136-142). -/
def speakers_error_response (e : String) : ℕ × List (String × String) :=
  (500, error_envelope e)

/-- `chat/__init__.py main` catch-all response (lines 330-340); the apology
prose is abbreviated here without its apostrophe, which no claim inspects. -/
def chat_error_response (e : String) : ℕ × List (String × String) :=
  (500, error_envelope e ++
    [("answer", "I am sorry, I encountered an error processing your request. Please try again.")])

/-! ## Association-list accumulation

Both `DataStorage.get_trends` and the speakers endpoint accumulate per-key
statistics in an (insertion-ordered) Python dict; we model the dict as an
association list where a new key is appended at the end. -/

/-- Update the entry at `key` with `upd`, starting from `dflt` when the key
is absent (the sources always initialize a fresh entry and then apply the
update to it). -/
def upsert (key : String) (dflt : β) (upd : β → β) : List (String × β) → List (String × β)
  | [] => [(key, upd dflt)]
  | (k, v) :: rest =>
      if k = key then (k, upd v) :: rest else (k, v) :: upsert key dflt upd rest

/-! ## `DataStorage.get_trends` aggregation (shared/data_storage.py, lines 148-188)

`get_trends` retrieves up to 1000 utterances through `search_utterances`
(with the window fields of the filter dict copied into the response) and
then aggregates; the aggregation below takes the retrieved collection as its
argument. -/

/-- One step of the inner `for topic in topics` loop: `topic_counts[topic] += 1`
and `sentiment_by_topic[topic].append(sentiment)`. -/
def bump_topic (s : ℚ) (p : ℕ × List ℚ) : ℕ × List ℚ :=
  (p.1 + 1, p.2 ++ [s])

/-- Process one utterance: iterate over its `topics`. -/
def add_topics (acc : List (String × ℕ × List ℚ)) (u : Utterance) :
    List (String × ℕ × List ℚ) :=
  u.topics.foldl (fun a t => upsert t (0, []) (bump_topic u.sentiment_score) a) acc

/-- The `topic_counts` / `sentiment_by_topic` dictionaries after the loop. -/
def topic_accum (utterances : List Utterance) : List (String × ℕ × List ℚ) :=
  utterances.foldl add_topics []

/-- One derived trend record. -/
structure Trend where
  name : String
  description : String
  meetings_count : ℕ
  avg_sentiment : ℚ
  momentum : String
  novelty_score : ℚ
  support : List String
deriving Repr, DecidableEq

/-- Python `s.replace("_", " ")`. -/
def underscoresToSpaces (s : String) : String :=
  String.mk (s.toList.map (fun c => if c = '_' then ' ' else c))

/-- ASCII upper-casing of one character. -/
def upperChar (c : Char) : Char :=
  if c.toNat ≥ 97 ∧ c.toNat ≤ 122 then Char.ofNat (c.toNat - 32) else c

/-- Helper for `pyTitle`: the flag records whether the previous character was
alphabetic. -/
def pyTitleAux : Bool → List Char → List Char
  | _, [] => []
  | prevAlpha, c :: rest =>
      (if c.isAlpha then (if prevAlpha then lowerChar c else upperChar c) else c) ::
        pyTitleAux c.isAlpha rest

/-- Python `s.title()`: capitalize the first letter of each alphabetic run. -/
def pyTitle (s : String) : String :=
  String.mk (pyTitleAux false s.toList)

/-- Build the trend dict for one topic from its count and sentiment list. -/
def mk_trend (t : String) (c : ℕ) (ss : List ℚ) : Trend :=
  let avg : ℚ := ss.sum / (ss.length : ℚ)
  { name := pyTitle (underscoresToSpaces t),
    description := "Discussion about " ++ underscoresToSpaces t,
    meetings_count := c,
    avg_sentiment := pyRound2 avg,
    momentum := if avg > 1/10 then "up" else if avg < -(1/10) then "down" else "flat",
    novelty_score := min ((c : ℚ) / 10) 1,
    support := [] }

/-- The trend list of `DataStorage.get_trends`, as a function of the
retrieved utterance collection: build a trend per accumulated topic, sort
descending by `meetings_count` (Python `sorted` is stable, as is
`List.mergeSort`), truncate to 10. -/
def get_trends (utterances : List Utterance) : List Trend :=
  let trends := (topic_accum utterances).map (fun p => mk_trend p.1 p.2.1 p.2.2)
  (trends.mergeSort (fun a b => decide (b.meetings_count ≤ a.meetings_count))).take 10

/-! ## The speakers endpoint aggregation (insights_speakers/__init__.py, lines 64-124) -/

/-- One exemplar quote. -/
structure SpeakerQuote where
  quote : String
  meeting_id : String
  ts : String
deriving Repr, DecidableEq

/-- The per-speaker dict built by the loop. -/
structure SpeakerData where
  speaker_id : String
  display_name : String
  department : String
  region : String
  country : String
  mentions : ℕ
  sentiment_scores : List ℚ
  quotes : List SpeakerQuote
deriving Repr, DecidableEq

/-- `content[:200] + "..."` when over 200 characters, else the content. -/
def truncate_quote (c : String) : String :=
  if c.length > 200 then String.mk (c.toList.take 200) ++ "..." else c

/-- The quote dict appended for one utterance. -/
def mk_quote (u : Utterance) : SpeakerQuote :=
  { quote := truncate_quote u.content,
    meeting_id := u.meeting_id,
    ts := u.start_timestamp }

/-- The fresh entry created when a speaker is first seen (before the
increments that follow it in the loop body). -/
def init_speaker (u : Utterance) : SpeakerData :=
  { speaker_id := "spk-" ++ removeSpaces (pyLower u.speaker),
    display_name := u.speaker,
    department := u.department,
    region := u.region,
    country := "US",
    mentions := 0,
    sentiment_scores := [],
    quotes := [] }

/-- The loop body after the entry exists: `mentions += 1`, append the
sentiment, and append a quote while fewer than 3 are collected. -/
def bump_speaker (u : Utterance) (d : SpeakerData) : SpeakerData :=
  { d with
    mentions := d.mentions + 1,
    sentiment_scores := d.sentiment_scores ++ [u.sentiment_score],
    quotes := d.quotes ++ (if d.quotes.length < 3 then [mk_quote u] else []) }

/-- Process one utterance of the speakers loop. -/
def add_speaker (acc : List (String × SpeakerData)) (u : Utterance) :
    List (String × SpeakerData) :=
  upsert u.speaker (init_speaker u) (bump_speaker u) acc

/-- The `speaker_data` dict after the loop. -/
def speaker_accum (utterances : List Utterance) : List (String × SpeakerData) :=
  utterances.foldl add_speaker []

/-- One formatted result row of the speakers endpoint. -/
structure SpeakerResult where
  speaker_id : String
  display_name : String
  department : String
  region : String
  country : String
  mentions : ℕ
  avg_sentiment : ℚ
  exemplar_quotes : List SpeakerQuote
deriving Repr, DecidableEq

/-- Format one accumulated speaker entry into a result row (the body of the
`for speaker, data in speaker_data.items()` loop). -/
def format_speaker (p : String × SpeakerData) : SpeakerResult :=
  let d := p.2
  let avg : ℚ :=
    if d.sentiment_scores.isEmpty then 0
    else d.sentiment_scores.sum / (d.sentiment_scores.length : ℚ)
  { speaker_id := d.speaker_id,
    display_name := d.display_name,
    department := d.department,
    region := d.region,
    country := d.country,
    mentions := d.mentions,
    avg_sentiment := pyRound2 avg,
    exemplar_quotes := d.quotes }

/-- The speakers endpoint's result list: format each accumulated entry and
sort descending by `mentions` (stable, like Python `list.sort`). -/
def speaker_results (utterances : List Utterance) : List SpeakerResult :=
  let results := (speaker_accum utterances).map format_speaker
  results.mergeSort (fun a b => decide (b.mentions ≤ a.mentions))

/-! ## `ChatQueryProcessor.process_query` (chat/__init__.py, lines 104-209)

The intent comes out of `extract_intent_and_parameters`; the dispatch always
queries with empty filters, so the only storage interaction is the backend
response.  `genAnswer` is the prose the answer-generation collaborator
returns; `failure = some e` is any exception escaping the dispatch/answer
pipeline, caught by the method's own `except` block. -/

/-- The fields of the returned dict that the claims inspect (`data`,
`sources`, `intent` and `parameters_used` are carried alongside them in the
source). -/
structure ChatResult where
  answer : String
  confidence : ℚ
  error : Option String
deriving Repr, DecidableEq

/-- The `has_data` computation.  For the `speakers` and `sentiment` intents
the source tests the truthiness of a dict literal that always carries at
least one key, so the test is always true; for an intent outside the four
tested names (for example `topics`) no branch matches and `has_data` stays
`False`. -/
def chat_has_data (intent : String) (utts : List Utterance) : Bool :=
  if intent = "trends" then !(get_trends utts).isEmpty
  else if intent = "speakers" ∨ intent = "sentiment" then true
  else if intent = "utterances" then !utts.isEmpty
  else false

/-- `ChatQueryProcessor.process_query`. -/
def process_query (intent : String) (backend : Option (List Utterance))
    (genAnswer : String) (failure : Option String) : ChatResult :=
  match failure with
  | some e =>
      if containsSubstr (pyLower e) "key must be a string" then
        { answer := "I am currently experiencing a technical issue with parameter processing. Please try asking your question in a different way.",
          confidence := 0,
          error := some "Parameter validation error - please rephrase your question" }
      else
        { answer := "I apologize, but I encountered an error processing your question. Please try rephrasing your query.",
          confidence := 0,
          error := some e }
  | none =>
      let utts := search_utterances backend
      { answer := genAnswer,
        confidence := if chat_has_data intent utts then 17/20 else 3/10,
        error := none }

/-! ## Speaker extraction (shared/transcript_parser.py)

Both caption parsers run the same four lines on the (stripped) cue text.
The source condition is `':' in content and len(content.split(':', 1)) == 2`;
the second conjunct is implied by the first, since `split` with `maxsplit=1`
yields exactly two parts whenever the separator occurs. -/

/-- The speaker-extraction rule as written in `TranscriptParser.parse_vtt`
(lines 55-60): split at the first `:`, accept the stripped left part as the
speaker when it is under 50 characters. -/
def extract_speaker_vtt (text : String) : String × String :=
  if text.toList.contains ':' then
    let before := String.mk (text.toList.takeWhile (fun c => c ≠ ':'))
    let after := String.mk ((text.toList.dropWhile (fun c => c ≠ ':')).tail)
    if (pyStrip before).length < 50 then (pyStrip before, pyStrip after)
    else ("Unknown Speaker", text)
  else ("Unknown Speaker", text)

/-- The identical rule as written in
`TranscriptParser._parse_vtt_fallback` (lines 117-123). -/
def extract_speaker_fallback (text : String) : String × String :=
  if text.toList.contains ':' then
    let before := String.mk (text.toList.takeWhile (fun c => c ≠ ':'))
    let after := String.mk ((text.toList.dropWhile (fun c => c ≠ ':')).tail)
    if (pyStrip before).length < 50 then (pyStrip before, pyStrip after)
    else ("Unknown Speaker", text)
  else ("Unknown Speaker", text)

/-! ## `AIEnrichment.enrich_utterances` (shared/ai_enrichment.py, lines 196-231) -/

/-- Department inference from the first extracted organization. -/
def map_department (org : String) : String :=
  let o := pyLower org
  if containsSubstr o "marketing" then "Marketing"
  else if containsSubstr o "operations" then "Operations"
  else if containsSubstr o "finance" then "Finance"
  else "General"

/-- Region inference from the first extracted location. -/
def map_region (loc : String) : String :=
  let l := pyLower loc
  if containsSubstr l "north america" || containsSubstr l "us" then "North America"
  else if containsSubstr l "europe" || containsSubstr l "emea" then "EMEA"
  else if containsSubstr l "asia" then "Asia Pacific"
  else "Global"

/-- The loop body of `enrich_utterances` for one utterance: copy the record,
overwrite `sentiment_score` and `entities`, and overwrite `department` /
`region` only when the respective entity list is non-empty (only its first
element is consulted). -/
def enrich_one (sentF : String → SentimentResponse) (entF : String → Option Entities)
    (u : Utterance) : Utterance :=
  let score := analyze_sentiment (sentF u.content)
  let ents := extract_entities (entF u.content)
  let u1 := { u with sentiment_score := score, entities := some ents }
  let u2 :=
    match ents.organizations with
    | [] => u1
    | org :: _ => { u1 with department := map_department org }
  match ents.locations with
  | [] => u2
  | loc :: _ => { u2 with region := map_region loc }

/-- `AIEnrichment.enrich_utterances`: the loop appends one enriched record
per input record, in order. -/
def enrich_utterances (sentF : String → SentimentResponse)
    (entF : String → Option Entities) (utterances : List Utterance) : List Utterance :=
  utterances.map (enrich_one sentF entF)

/-! ## The utterances endpoint (insights_utterances/__init__.py, lines 45-100)

`int(...)` is modelled by `pyParseInt` (optional surrounding whitespace, an
optional sign, then a non-empty digit string, with single underscores
allowed between digits). -/

/-- Digit-string parsing after the first digit: an underscore must sit
between two digits. -/
def parseDigitsAux (acc : ℕ) : List Char → Option ℕ
  | [] => some acc
  | '_' :: c :: rest =>
      if c.isDigit then parseDigitsAux (acc * 10 + (c.toNat - 48)) rest else none
  | ['_'] => none
  | c :: rest =>
      if c.isDigit then parseDigitsAux (acc * 10 + (c.toNat - 48)) rest else none

/-- A non-empty digit string, underscores only between digits. -/
def parseDigits : List Char → Option ℕ
  | [] => none
  | c :: rest =>
      if c.isDigit then parseDigitsAux (c.toNat - 48) rest else none

/-- Python `int(s)` for string arguments: `some n` on success, `none` when
`ValueError` is raised. -/
def pyParseInt (s : String) : Option ℤ :=
  match (pyStrip s).toList with
  | '-' :: rest => (parseDigits rest).map (fun n => -(n : ℤ))
  | '+' :: rest => (parseDigits rest).map (fun n => (n : ℤ))
  | l => (parseDigits l).map (fun n => (n : ℤ))

/-- The pagination block of the handler: both conversions sit in one `try`,
so a `ValueError` from either parameter resets both to the defaults `50` and
`0`; afterwards `top = min(top, 100)`.  An absent parameter defaults (`50`
resp. `0`) before `int()` is applied, which then cannot fail. -/
def compute_top_skip (topP skipP : Option String) : ℤ × ℤ :=
  let topParsed : Option ℤ :=
    match topP with
    | none => some 50
    | some s => pyParseInt s
  let skipParsed : Option ℤ :=
    match skipP with
    | none => some 0
    | some s => pyParseInt s
  match topParsed, skipParsed with
  | some t, some k => (min t 100, k)
  | _, _ => (min 50 100, 0)

/-- The response fields of the handler that the claims inspect.  The item
dicts only reshape stored fields for presentation and are kept as the raw
records here. -/
structure UtterancesResponse where
  status_code : ℕ
  items : List Utterance
  pagination_top : ℤ
  pagination_skip : ℤ
deriving Repr, DecidableEq

/-- `insights_utterances/__init__.py main`, as a function of the pagination
parameters and the storage backend (which receives the computed `top` and
`skip`).  A storage failure is already absorbed inside `search_utterances`,
so the handler's own catch-all never fires on it and the status is 200. -/
def insights_utterances_main (topP skipP : Option String)
    (backend : ℤ → ℤ → Option (List Utterance)) : UtterancesResponse :=
  let ts := compute_top_skip topP skipP
  let records := search_utterances (backend ts.1 ts.2)
  { status_code := 200,
    items := records,
    pagination_top := ts.1,
    pagination_skip := ts.2 }

/-- A concrete normalized record used to instantiate theorems on concrete
inputs. -/
def baseUtterance : Utterance :=
  { id := "u-1",
    meeting_id := "meeting-1",
    meeting_date := "2025-01-01T00:00:00Z",
    speaker := "Alice",
    department := "Unknown",
    region := "Unknown",
    topics := [],
    sentiment_score := 0,
    content := "hello world",
    start_timestamp := "00:00:00",
    end_timestamp := "00:00:01",
    duration_seconds := 1,
    created_at := "2025-01-02T00:00:00Z",
    updated_at := "2025-01-02T00:00:00Z",
    entities := none }

/-! # Helper lemmas about association-list accumulation -/

theorem lookup_upsert_self {β} (key : String) (dflt : β) (upd : β → β)
    (acc : List (String × β)) :
    (upsert key dflt upd acc).lookup key = some (upd ((acc.lookup key).getD dflt)) := by
  induction acc with
  | nil => simp [upsert, List.lookup]
  | cons kv rest ih =>
      obtain ⟨k, v⟩ := kv
      by_cases h : k = key
      · subst h
        simp [upsert, List.lookup]
      · simp only [upsert, if_neg h, List.lookup]
        have hbeq : (key == k) = false := by
          simp [beq_eq_false_iff_ne]
          exact fun hh => h hh.symm
        simp [hbeq, ih]

theorem lookup_upsert_ne {β} (key k' : String) (h : k' ≠ key) (dflt : β) (upd : β → β)
    (acc : List (String × β)) :
    (upsert key dflt upd acc).lookup k' = acc.lookup k' := by
  induction acc with
  | nil =>
      have hbeq : (k' == key) = false := by simp [beq_eq_false_iff_ne, h]
      simp [upsert, List.lookup, hbeq]
  | cons kv rest ih =>
      obtain ⟨k, v⟩ := kv
      by_cases hk : k = key
      · subst hk
        have hbeq : (k' == k) = false := by simp [beq_eq_false_iff_ne, h]
        simp [upsert, List.lookup, hbeq]
      · simp only [upsert, if_neg hk, List.lookup]
        by_cases hk' : k' = k
        · subst hk'
          simp
        · have hbeq : (k' == k) = false := by simp [beq_eq_false_iff_ne, hk']
          simp [hbeq, ih]

theorem keys_upsert {β} (key : String) (dflt : β) (upd : β → β)
    (acc : List (String × β)) :
    (upsert key dflt upd acc).map Prod.fst =
      if key ∈ acc.map Prod.fst then acc.map Prod.fst
      else acc.map Prod.fst ++ [key] := by
  induction acc with
  | nil => simp [upsert]
  | cons kv rest ih =>
      obtain ⟨k, v⟩ := kv
      by_cases h : k = key
      · subst h
        simp [upsert]
      · simp only [upsert, if_neg h, List.map_cons]
        by_cases hm : key ∈ rest.map Prod.fst
        · rw [ih]
          simp [hm, Ne.symm h]
        · rw [ih]
          have : ¬ key ∈ (k, v).1 :: rest.map Prod.fst := by
            simp [hm, Ne.symm h]
          simp [hm, Ne.symm h]

theorem keys_nodup_upsert {β} (key : String) (dflt : β) (upd : β → β)
    (acc : List (String × β)) (h : (acc.map Prod.fst).Nodup) :
    ((upsert key dflt upd acc).map Prod.fst).Nodup := by
  rw [keys_upsert]
  by_cases hm : key ∈ acc.map Prod.fst
  · simpa [hm] using h
  · simp only [hm, if_false]
    refine List.Nodup.append h (List.nodup_singleton _) ?_
    intro a ha hb
    rw [List.mem_singleton] at hb
    subst hb
    exact hm ha

theorem mem_iff_lookup_of_nodup {β} {acc : List (String × β)}
    (h : (acc.map Prod.fst).Nodup) (k : String) (v : β) :
    (k, v) ∈ acc ↔ acc.lookup k = some v := by
  induction acc with
  | nil => simp [List.lookup]
  | cons kv rest ih =>
      obtain ⟨k', v'⟩ := kv
      have h' : (k' :: rest.map Prod.fst).Nodup := by
        rw [List.map_cons] at h
        exact h
      have h1 : k' ∉ rest.map Prod.fst := (List.nodup_cons.mp h').1
      have h2 : (rest.map Prod.fst).Nodup := (List.nodup_cons.mp h').2
      by_cases hk : k = k'
      · subst hk
        have hbeq : (k == k) = true := by simp
        simp only [List.lookup, hbeq, List.mem_cons]
        constructor
        · rintro (heq | hmem)
          · cases heq
            rfl
          · exfalso
            exact h1 (List.mem_map_of_mem Prod.fst hmem)
        · rintro heq
          left
          cases heq
          rfl
      · have hbeq : (k == k') = false := by simp [beq_eq_false_iff_ne, hk]
        simp only [List.lookup, hbeq, List.mem_cons]
        rw [← ih h2]
        constructor
        · rintro (heq | hmem)
          · cases heq
            exact absurd rfl hk
          · exact hmem
        · exact fun hmem => Or.inr hmem

/-! # The trend accumulator (claim C5) -/

theorem lookup_topics_foldl (s : ℚ) (ts : List String) (hnd : ts.Nodup)
    (acc : List (String × ℕ × List ℚ)) (t : String) :
    (ts.foldl (fun a t' => upsert t' (0, []) (bump_topic s) a) acc).lookup t =
      if t ∈ ts then some (bump_topic s ((acc.lookup t).getD (0, [])))
      else acc.lookup t := by
  induction ts generalizing acc with
  | nil => simp
  | cons t' ts ih =>
      have hnd' : ts.Nodup := (List.nodup_cons.mp hnd).2
      have hni : t' ∉ ts := (List.nodup_cons.mp hnd).1
      rw [List.foldl_cons]
      by_cases h : t = t'
      · subst h
        have htni : t ∉ ts := hni
        rw [ih hnd', if_neg htni, lookup_upsert_self]
        simp
      · rw [ih hnd', lookup_upsert_ne t' t h]
        by_cases hm : t ∈ ts
        · simp [hm, h]
        · simp [hm, h]

theorem keys_nodup_topics_foldl (s : ℚ) (ts : List String)
    (acc : List (String × ℕ × List ℚ)) (h : (acc.map Prod.fst).Nodup) :
    (((ts.foldl (fun a t' => upsert t' (0, []) (bump_topic s) a) acc)).map Prod.fst).Nodup := by
  induction ts generalizing acc with
  | nil => simpa using h
  | cons t' ts ih =>
      rw [List.foldl_cons]
      exact ih _ (keys_nodup_upsert t' _ _ acc h)

theorem topic_accum_keys_nodup (utterances : List Utterance) :
    ((topic_accum utterances).map Prod.fst).Nodup := by
  have main : ∀ (l : List Utterance) (acc : List (String × ℕ × List ℚ)),
      (acc.map Prod.fst).Nodup → ((l.foldl add_topics acc).map Prod.fst).Nodup := by
    intro l
    induction l with
    | nil => intro acc h; simpa using h
    | cons u rest ih =>
        intro acc h
        rw [List.foldl_cons]
        exact ih _ (keys_nodup_topics_foldl u.sentiment_score u.topics acc h)
  simpa [topic_accum] using main utterances [] (by simp)

theorem lookup_topic_accum (utterances : List Utterance)
    (h : ∀ u ∈ utterances, u.topics.Nodup) (t : String) :
    (topic_accum utterances).lookup t =
      if utterances.countP (fun u => decide (t ∈ u.topics)) = 0 then none
      else some (utterances.countP (fun u => decide (t ∈ u.topics)),
        (utterances.filter (fun u => decide (t ∈ u.topics))).map Utterance.sentiment_score) := by
  induction utterances using List.reverseRecOn with
  | nil => simp [topic_accum, List.lookup]
  | append_singleton utts u ih =>
      have h1 : ∀ v ∈ utts, v.topics.Nodup := fun v hv => h v (by simp [hv])
      have h2 : u.topics.Nodup := h u (by simp)
      have hstep : topic_accum (utts ++ [u]) = add_topics (topic_accum utts) u := by
        simp [topic_accum, List.foldl_append]
      rw [hstep]
      unfold add_topics
      rw [lookup_topics_foldl u.sentiment_score u.topics h2 _ t, ih h1]
      by_cases hm : t ∈ u.topics
      · rw [if_pos hm]
        by_cases hz : utts.countP (fun u => decide (t ∈ u.topics)) = 0
        · have hfil : utts.filter (fun u => decide (t ∈ u.topics)) = [] := by
            exact List.filter_eq_nil_iff.mpr (List.countP_eq_zero.mp hz)
          simp [hz, List.countP_append, List.filter_append, hfil, hm, bump_topic]
        · simp [hz, List.countP_append, List.filter_append, hm, bump_topic]
      · rw [if_neg hm]
        simp [List.countP_append, List.filter_append, hm]

/-! # The speaker accumulator (claim C6) -/

theorem take_append_small {α} (l : List α) (x : α) (n : ℕ) :
    (l ++ [x]).take n = if l.length < n then l.take n ++ [x] else l.take n := by
  rw [List.take_append_eq_append_take]
  by_cases h : l.length < n
  · rw [if_pos h]
    congr 1
    cases hn : n - l.length with
    | zero => omega
    | succ m => simp
  · rw [if_neg h]
    have h0 : n - l.length = 0 := by omega
    simp [h0]

theorem speaker_accum_keys_nodup (utterances : List Utterance) :
    ((speaker_accum utterances).map Prod.fst).Nodup := by
  have main : ∀ (l : List Utterance) (acc : List (String × SpeakerData)),
      (acc.map Prod.fst).Nodup → ((l.foldl add_speaker acc).map Prod.fst).Nodup := by
    intro l
    induction l with
    | nil => intro acc h; simpa using h
    | cons u rest ih =>
        intro acc h
        rw [List.foldl_cons]
        exact ih _ (keys_nodup_upsert u.speaker _ _ acc h)
  simpa [speaker_accum] using main utterances [] (by simp)

/-- The per-speaker record built for speaker `s` by one accumulator entry,
given the retrieved utterances by `s`, in order. -/
def speakerRecordFor (s : String) (f : List Utterance) (u0 : Utterance) : SpeakerData :=
  { speaker_id := "spk-" ++ removeSpaces (pyLower s),
    display_name := s,
    department := u0.department,
    region := u0.region,
    country := "US",
    mentions := f.length,
    sentiment_scores := f.map Utterance.sentiment_score,
    quotes := (f.take 3).map mk_quote }

theorem lookup_speaker_accum (utterances : List Utterance) (s : String) :
    (speaker_accum utterances).lookup s =
      ((utterances.filter (fun u => decide (u.speaker = s))).head?).map
        (speakerRecordFor s (utterances.filter (fun u => decide (u.speaker = s)))) := by
  induction utterances using List.reverseRecOn with
  | nil => simp [speaker_accum, List.lookup]
  | append_singleton utts u ih =>
      have hstep : speaker_accum (utts ++ [u]) = add_speaker (speaker_accum utts) u := by
        simp [speaker_accum, List.foldl_append]
      rw [hstep]
      unfold add_speaker
      by_cases hsp : u.speaker = s
      · subst hsp
        rw [lookup_upsert_self, ih]
        have hfil : (utts ++ [u]).filter (fun v => decide (v.speaker = u.speaker)) =
            utts.filter (fun v => decide (v.speaker = u.speaker)) ++ [u] := by
          simp [List.filter_append]
        rw [hfil]
        cases hf : utts.filter (fun v => decide (v.speaker = u.speaker)) with
        | nil =>
            simp [bump_speaker, init_speaker, speakerRecordFor, mk_quote]
        | cons u0 l =>
            have hhead : ((u0 :: l) ++ [u]).head? = some u0 := by simp
            rw [hhead]
            simp only [List.head?_cons, Option.map_some, Option.getD_some]
            refine congrArg some ?_
            have hquotes : ((u0 :: l).take 3).map mk_quote ++
                (if (((u0 :: l).take 3).map mk_quote).length < 3 then [mk_quote u] else []) =
                (((u0 :: l) ++ [u]).take 3).map mk_quote := by
              rw [take_append_small]
              by_cases hlen : l.length < 2
              · have hc1 : (u0 :: l).length < 3 := by
                  simp only [List.length_cons]
                  omega
                have hqlt : (((u0 :: l).take 3).map mk_quote).length < 3 := by
                  simp [List.length_take]
                  omega
                rw [if_pos hc1, if_pos hqlt, List.map_append]
                simp
              · have hc1 : ¬ (u0 :: l).length < 3 := by
                  simp only [List.length_cons]
                  omega
                have hqge : ¬ (((u0 :: l).take 3).map mk_quote).length < 3 := by
                  simp [List.length_take]
                  omega
                rw [if_neg hc1, if_neg hqge, List.append_nil]
            simp only [bump_speaker, speakerRecordFor, SpeakerData.mk.injEq]
            refine ⟨rfl, rfl, rfl, rfl, rfl, by simp [speakerRecordFor],
              by simp [speakerRecordFor], ?_⟩
            simpa [speakerRecordFor] using hquotes
      · have hne : s ≠ u.speaker := fun he => hsp he.symm
        rw [lookup_upsert_ne u.speaker s hne, ih]
        have hfil : (utts ++ [u]).filter (fun v => decide (v.speaker = s)) =
            utts.filter (fun v => decide (v.speaker = s)) := by
          simp [List.filter_append, hsp]
        rw [hfil]

/-! # Claim theorems -/

/-- C1: for every collaborator response — a parseable number, a
classification phrase, garbage text, or a raised transport/service error —
the value produced by `analyze_sentiment` lies in `[-1, 1]`; a numeric
response is clamped into `[-1, 1]`, a non-numeric response containing
`positive` yields 0.5, one containing `negative` yields -0.5, any other
non-numeric response yields 0.0, and a raised error yields 0.0. -/
theorem C1_sentiment_range :
    (∀ r : SentimentResponse,
      -1 ≤ analyze_sentiment r ∧ analyze_sentiment r ≤ 1) ∧
    (∀ q : ℚ, analyze_sentiment (.num q) = max (-1) (min 1 q)) ∧
    (∀ s : String,
      analyze_sentiment (.text s) =
        (if containsSubstr (pyLower s) "positive" then 1/2
         else if containsSubstr (pyLower s) "negative" then -1/2
         else 0)) ∧
    analyze_sentiment .failure = 0 := by
  refine ⟨?_, fun q => rfl, fun s => rfl, rfl⟩
  intro r
  cases r with
  | num q =>
      constructor
      · exact le_max_left _ _
      · exact max_le (by norm_num) (min_le_left _ _)
  | text s =>
      simp only [analyze_sentiment]
      split_ifs <;> norm_num
  | failure =>
      simp only [analyze_sentiment]
      norm_num

/-- C3 counterexample: with a storage collaborator that raises on every
read/write, the utterances query endpoint still returns a 200 success with
an empty result rather than a 500-class error, and the ingestion path still
reports success although `store_utterances` returned `False`. -/
theorem C3_counterexample :
    (insights_utterances_main none none (fun _ _ => none)).status_code = 200 ∧
    ¬ 500 ≤ (insights_utterances_main none none (fun _ _ => none)).status_code ∧
    (insights_utterances_main none none (fun _ _ => none)).items = [] ∧
    store_utterances none = false ∧
    upload_store_status none = (200, "success") := by
  refine ⟨rfl, by decide, rfl, rfl, rfl⟩

/-- C3 (amended): when the storage collaborator raises, `search_utterances`
swallows the error and returns `[]`, so a query request succeeds (status
200) with empty data instead of failing; `store_utterances` returns `False`
and the ingestion handler ignores that result and still reports success. -/
theorem C3_storage_failure_swallowed :
    (∀ tp sp : Option String,
      (insights_utterances_main tp sp (fun _ _ => none)).status_code = 200 ∧
      (insights_utterances_main tp sp (fun _ _ => none)).items = []) ∧
    search_utterances none = [] ∧
    store_utterances none = false ∧
    upload_store_status none = (200, "success") :=
  ⟨fun _ _ => ⟨rfl, rfl⟩, rfl, rfl, rfl⟩

/-- C4 counterexample: the catch-all error body of every endpoint carries
the exception message `str(e)` in its `details` field, so internal exception
detail does appear in the response body. -/
theorem C4_counterexample :
    ("details", "boom") ∈ (utterances_error_response "boom").2 ∧
    ("details", "boom") ∈ (trends_error_response "boom").2 ∧
    ("details", "boom") ∈ (speakers_error_response "boom").2 ∧
    ("details", "boom") ∈ (chat_error_response "boom").2 := by
  refine ⟨?_, ?_, ?_, ?_⟩ <;>
    simp [utterances_error_response, trends_error_response, speakers_error_response,
      chat_error_response, error_envelope]

/-- C4 (amended): every error response is the fixed structured JSON envelope
with status 500, a generic `error` message and the exception message in a
`details` field (plus an apology `answer` for the chat endpoint); stack
traces are only written to the server log, never placed in the body. -/
theorem C4_error_envelope_shape :
    ∀ e : String,
      utterances_error_response e =
        (500, [("error", "Internal server error"), ("details", e)]) ∧
      trends_error_response e =
        (500, [("error", "Internal server error"), ("details", e)]) ∧
      speakers_error_response e =
        (500, [("error", "Internal server error"), ("details", e)]) ∧
      chat_error_response e =
        (500, [("error", "Internal server error"), ("details", e),
          ("answer", "I am sorry, I encountered an error processing your request. Please try again.")]) ∧
      (utterances_error_response e).2.map Prod.fst = ["error", "details"] ∧
      (chat_error_response e).2.map Prod.fst = ["error", "details", "answer"] :=
  fun _ => ⟨rfl, rfl, rfl, rfl, rfl, rfl⟩

/-- C4 witness: the amended envelope shape at a concrete exception text. -/
theorem C4_witness :
    trends_error_response "division by zero" =
      (500, [("error", "Internal server error"), ("details", "division by zero")]) :=
  (C4_error_envelope_shape "division by zero").2.1

/-- C8 counterexample: a cue whose trimmed prospective speaker name is
exactly 50 characters long is NOT treated as a speaker (the source tests
`< 50`, not `≤ 50`), and a cue with two `:` separators IS split at the
first one (the source only tests that a `:` occurs). -/
theorem C8_counterexample :
    (extract_speaker_vtt (String.mk (List.replicate 50 'a') ++ ":x") =
        ("Unknown Speaker", String.mk (List.replicate 50 'a') ++ ":x") ∧
      (pyStrip (String.mk (List.replicate 50 'a'))).length = 50) ∧
    (extract_speaker_vtt "a: b: c" = ("a", "b: c") ∧
      (("a: b: c").toList.filter (fun c => c = ':')).length = 2) := by
  refine ⟨⟨?_, ?_⟩, ?_, ?_⟩ <;> decide

/-- C8 (amended): both the primary and the fallback caption parser apply
the same rule; a cue text is treated as `speaker: remainder` exactly when it
contains at least one `:` and the trimmed portion before the first `:` is
strictly fewer than 50 characters, and otherwise the speaker is
`Unknown Speaker` with the whole text as content. -/
theorem C8_speaker_extraction_rule (text : String) :
    extract_speaker_vtt text = extract_speaker_fallback text ∧
    (text.toList.contains ':' = true →
      (((pyStrip (String.mk (text.toList.takeWhile (fun c => c ≠ ':')))).length < 50 →
          extract_speaker_vtt text =
            (pyStrip (String.mk (text.toList.takeWhile (fun c => c ≠ ':'))),
             pyStrip (String.mk ((text.toList.dropWhile (fun c => c ≠ ':')).tail)))) ∧
        (¬ (pyStrip (String.mk (text.toList.takeWhile (fun c => c ≠ ':')))).length < 50 →
          extract_speaker_vtt text = ("Unknown Speaker", text)))) ∧
    (text.toList.contains ':' = false →
      extract_speaker_vtt text = ("Unknown Speaker", text)) := by
  refine ⟨rfl, fun hc => ⟨fun hl => ?_, fun hl => ?_⟩, fun hc => ?_⟩ <;>
    · simp only [extract_speaker_vtt]
      split_ifs <;> simp_all

/-- C8 witness: the extraction rule applied to a concrete well-formed cue. -/
theorem C8_witness :
    extract_speaker_vtt "Bob: hi" = ("Bob", "hi") ∧
    extract_speaker_vtt "Bob: hi" = extract_speaker_fallback "Bob: hi" := by
  obtain ⟨heq, himp, -⟩ := C8_speaker_extraction_rule "Bob: hi"
  have h := (himp (by decide)).1 (by decide)
  refine ⟨?_, heq⟩
  rw [h]
  decide

/-- C9: `enrich_utterances` returns a list of the same length and order in
which each output record agrees with its input record on every field except
`sentiment_score`, `entities`, `department` and `region`; when no
organizations were extracted the department keeps its prior value, and when
no locations were extracted the region keeps its prior value. -/
theorem C9_enrich_frame (sentF : String → SentimentResponse)
    (entF : String → Option Entities) (utts : List Utterance) :
    (enrich_utterances sentF entF utts).length = utts.length ∧
    List.Forall₂ (fun v u : Utterance =>
        v.id = u.id ∧ v.meeting_id = u.meeting_id ∧ v.meeting_date = u.meeting_date ∧
        v.speaker = u.speaker ∧ v.topics = u.topics ∧ v.content = u.content ∧
        v.start_timestamp = u.start_timestamp ∧ v.end_timestamp = u.end_timestamp ∧
        v.duration_seconds = u.duration_seconds ∧ v.created_at = u.created_at ∧
        v.updated_at = u.updated_at ∧
        ((extract_entities (entF u.content)).organizations = [] →
          v.department = u.department) ∧
        ((extract_entities (entF u.content)).locations = [] →
          v.region = u.region))
      (enrich_utterances sentF entF utts) utts := by
  constructor
  · simp [enrich_utterances]
  · induction utts with
    | nil => simp [enrich_utterances]
    | cons u rest ih =>
        refine List.Forall₂.cons ?_ ih
        rcases horg : (extract_entities (entF u.content)).organizations with _ | ⟨o, os⟩ <;>
          rcases hloc : (extract_entities (entF u.content)).locations with _ | ⟨lo, ls⟩ <;>
            simp [enrich_one, horg, hloc]

/-- C9 witness: the frame property at a concrete record with a failing
enrichment collaborator. -/
theorem C9_witness :
    (enrich_utterances (fun _ => .failure) (fun _ => none) [baseUtterance]).length =
      [baseUtterance].length := by
  exact (C9_enrich_frame (fun _ => .failure) (fun _ => none) [baseUtterance]).1

/-- C10: the page size used for retrieval never exceeds 100 even when the
caller supplies a larger `top`; an unparsable `top` or `skip` resets both to
the defaults 50 and 0, and the request is not rejected (status stays 200). -/
theorem C10_pagination_clamp (topP skipP : Option String)
    (backend : ℤ → ℤ → Option (List Utterance)) :
    (insights_utterances_main topP skipP backend).pagination_top ≤ 100 ∧
    (insights_utterances_main topP skipP backend).status_code = 200 ∧
    (∀ s, topP = some s → pyParseInt s = none →
      ((insights_utterances_main topP skipP backend).pagination_top,
       (insights_utterances_main topP skipP backend).pagination_skip) = (50, 0)) ∧
    (∀ s, skipP = some s → pyParseInt s = none →
      ((insights_utterances_main topP skipP backend).pagination_top,
       (insights_utterances_main topP skipP backend).pagination_skip) = (50, 0)) := by
  have htop : (insights_utterances_main topP skipP backend).pagination_top =
      (compute_top_skip topP skipP).1 := rfl
  have hskip : (insights_utterances_main topP skipP backend).pagination_skip =
      (compute_top_skip topP skipP).2 := rfl
  have hmin : min (50 : ℤ) 100 = 50 := by omega
  refine ⟨?_, rfl, ?_, ?_⟩
  · rw [htop]
    obtain ⟨a, ha⟩ : ∃ a, (match topP with
        | none => some (50 : ℤ) | some s => pyParseInt s) = a := ⟨_, rfl⟩
    obtain ⟨b, hb⟩ : ∃ b, (match skipP with
        | none => some (0 : ℤ) | some s => pyParseInt s) = b := ⟨_, rfl⟩
    simp only [compute_top_skip, ha, hb]
    rcases a with _ | t <;> rcases b with _ | k <;> simp
  · intro s hs hparse
    subst hs
    rw [htop, hskip]
    simp only [compute_top_skip, hparse]
    simp [hmin]
  · intro s hs hparse
    subst hs
    rw [htop, hskip]
    rcases topP with _ | s2
    · simp only [compute_top_skip, hparse]
      simp [hmin]
    · rcases h2 : pyParseInt s2 with _ | t <;>
        · simp only [compute_top_skip, hparse, h2]
          simp [hmin]

/-- C10 witness: an unparsable `top` at a concrete request is replaced by
the defaults and the effective page size is within the cap. -/
theorem C10_witness :
    (insights_utterances_main (some "oops") none (fun _ _ => some [])).pagination_top ≤ 100 ∧
    ((insights_utterances_main (some "oops") none (fun _ _ => some [])).pagination_top,
     (insights_utterances_main (some "oops") none (fun _ _ => some [])).pagination_skip) =
      (50, 0) := by
  obtain ⟨h1, -, h3, -⟩ :=
    C10_pagination_clamp (some "oops") none (fun _ _ => some [])
  exact ⟨h1, h3 "oops" rfl (by decide)⟩

/-! ## Claim C2: the topic decision -/

theorem eq_of_fst_eq_of_keys_nodup {α β} : ∀ {l : List (α × β)},
    (l.map Prod.fst).Nodup → ∀ p q : α × β, p ∈ l → q ∈ l → p.1 = q.1 → p = q := by
  intro l
  induction l with
  | nil =>
      intro _ p q hp
      simp at hp
  | cons x rest ih =>
      intro h p q hp hq hfst
      have h' : (x.1 :: rest.map Prod.fst).Nodup := by simpa using h
      have hx : x.1 ∉ rest.map Prod.fst := (List.nodup_cons.mp h').1
      have hr : (rest.map Prod.fst).Nodup := (List.nodup_cons.mp h').2
      rcases List.mem_cons.mp hp with hp1 | hp2 <;> rcases List.mem_cons.mp hq with hq1 | hq2
      · rw [hp1, hq1]
      · exfalso
        apply hx
        have : q.1 ∈ rest.map Prod.fst := List.mem_map_of_mem Prod.fst hq2
        rw [← hfst, hp1] at this
        exact this
      · exfalso
        apply hx
        have : p.1 ∈ rest.map Prod.fst := List.mem_map_of_mem Prod.fst hp2
        rw [hfst, hq1] at this
        exact this
      · exact ih hr p q hp2 hq2 hfst

theorem keyword_topics_eq (texts : List String) :
    keyword_topics texts =
      (if (topic_keywords.filterMap (fun q =>
          if q.2.any (fun k => containsSubstr (pyLower (pyJoinSpace texts)) k) then some q.1
          else none)).isEmpty
       then ["general_discussion"]
       else topic_keywords.filterMap (fun q =>
          if q.2.any (fun k => containsSubstr (pyLower (pyJoinSpace texts)) k) then some q.1
          else none)) := rfl

theorem mem_keyword_topics_iff (texts : List String) (p : String × List String)
    (hp : p ∈ topic_keywords) :
    p.1 ∈ keyword_topics texts ↔
      p.2.any (fun k => containsSubstr (pyLower (pyJoinSpace texts)) k) = true := by
  have hnd : (topic_keywords.map Prod.fst).Nodup := by decide
  have hgd : ∀ x ∈ topic_keywords.map Prod.fst, x ≠ "general_discussion" := by decide
  rw [keyword_topics_eq]
  set L := topic_keywords.filterMap (fun q =>
    if q.2.any (fun k => containsSubstr (pyLower (pyJoinSpace texts)) k) then some q.1
    else none) with hL
  constructor
  · intro hm
    by_cases hE : L.isEmpty = true
    · rw [if_pos hE] at hm
      rw [List.mem_singleton] at hm
      exact absurd hm (hgd p.1 (List.mem_map_of_mem Prod.fst hp))
    · rw [if_neg hE] at hm
      rcases List.mem_filterMap.mp hm with ⟨q, hq, hval⟩
      by_cases hcq : q.2.any (fun k => containsSubstr (pyLower (pyJoinSpace texts)) k) = true
      · rw [if_pos hcq] at hval
        injection hval with hval
        have hqp : q = p := eq_of_fst_eq_of_keys_nodup hnd q p hq hp hval
        rw [hqp] at hcq
        exact hcq
      · rw [if_neg hcq] at hval
        exact absurd hval (by simp)
  · intro hc
    have hm : p.1 ∈ L := List.mem_filterMap.mpr ⟨p, hp, by rw [if_pos hc]⟩
    have hE : ¬ L.isEmpty = true := by
      intro hE
      rw [List.isEmpty_iff.mp hE] at hm
      simp at hm
    rw [if_neg hE]
    exact hm

theorem keyword_topics_gd_iff (texts : List String) :
    keyword_topics texts = ["general_discussion"] ↔
      ∀ p ∈ topic_keywords,
        p.2.any (fun k => containsSubstr (pyLower (pyJoinSpace texts)) k) = false := by
  have hgd : ∀ x ∈ topic_keywords.map Prod.fst, x ≠ "general_discussion" := by decide
  rw [keyword_topics_eq]
  set L := topic_keywords.filterMap (fun q =>
    if q.2.any (fun k => containsSubstr (pyLower (pyJoinSpace texts)) k) then some q.1
    else none) with hL
  constructor
  · intro he
    by_cases hE : L.isEmpty = true
    · intro p hp
      have hnil : L = [] := List.isEmpty_iff.mp hE
      have := List.filterMap_eq_nil_iff.mp hnil p hp
      by_cases hcp : p.2.any (fun k => containsSubstr (pyLower (pyJoinSpace texts)) k) = true
      · rw [if_pos hcp] at this
        exact absurd this (by simp)
      · simpa using hcp
    · rw [if_neg hE] at he
      exfalso
      have hm : "general_discussion" ∈ L := by
        rw [he]
        simp
      rcases List.mem_filterMap.mp hm with ⟨q, hq, hval⟩
      by_cases hcq : q.2.any (fun k => containsSubstr (pyLower (pyJoinSpace texts)) k) = true
      · rw [if_pos hcq] at hval
        injection hval with hval
        exact hgd q.1 (List.mem_map_of_mem Prod.fst hq) hval
      · rw [if_neg hcq] at hval
        exact absurd hval (by simp)
  · intro hall
    have hnil : L = [] := by
      apply List.filterMap_eq_nil_iff.mpr
      intro p hp
      rw [if_neg (by simp [hall p hp])]
    rw [if_pos (by rw [hnil]; rfl)]

/-- C2 counterexample: the embedding collaborator does affect the output —
when an embedding call raises, a keyword-rich text still yields only the
sentinel topic; and independently the uppercase keyword `rPET` never
matches the lowercased combined text, so the code disagrees with the
spec-worded case-insensitive rule even when all embedding calls succeed. -/
theorem C2_counterexample :
    (generate_topics (fun _ => none) ["sugar"] = ["general_discussion"] ∧
      spec_topic_rule ["sugar"] = ["sugar_reduction"]) ∧
    (generate_topics (fun _ => some []) ["rPET"] = ["general_discussion"] ∧
      spec_topic_rule ["rPET"] = ["packaging"]) := by
  refine ⟨⟨?_, ?_⟩, ?_, ?_⟩ <;> decide

/-- C2 (amended): provided every embedding call succeeds, `generate_topics`
equals the pure keyword rule — a topic of the fixed table is in the output
iff one of its keywords occurs (keyword matched verbatim, text lowercased)
in the space-joined texts, and the output is exactly
`["general_discussion"]` iff no table entry matches. -/
theorem C2_topics_refinement (embed : String → Option (List ℚ)) (texts : List String)
    (h : ∀ t ∈ texts, (embed t).isSome) :
    generate_topics embed texts = keyword_topics texts ∧
    (∀ p ∈ topic_keywords,
      (p.1 ∈ generate_topics embed texts ↔
        p.2.any (fun k => containsSubstr (pyLower (pyJoinSpace texts)) k) = true)) ∧
    (generate_topics embed texts = ["general_discussion"] ↔
      ∀ p ∈ topic_keywords,
        p.2.any (fun k => containsSubstr (pyLower (pyJoinSpace texts)) k) = false) := by
  have hany : texts.any (fun u => (embed u).isNone) = false := by
    rw [List.any_eq_false]
    intro t ht
    have := h t ht
    simp only [Option.isNone_iff_eq_none]
    intro hn
    rw [hn] at this
    simp at this
  have hgen : generate_topics embed texts = keyword_topics texts := by
    unfold generate_topics
    rw [hany]
    simp
  refine ⟨hgen, ?_, ?_⟩
  · intro p hp
    rw [hgen]
    exact mem_keyword_topics_iff texts p hp
  · rw [hgen]
    exact keyword_topics_gd_iff texts

/-- C2 witness: a successful embedding collaborator on a concrete text. -/
theorem C2_witness :
    generate_topics (fun _ => some []) ["sugar"] = keyword_topics ["sugar"] := by
  exact (C2_topics_refinement (fun _ => some []) ["sugar"] (by decide)).1

/-! ## Claim C7: chat confidence -/

theorem chat_has_data_iff (intent : String) (utts : List Utterance) :
    chat_has_data intent utts = true ↔
      ((intent = "trends" ∧ get_trends utts ≠ []) ∨
       intent = "speakers" ∨ intent = "sentiment" ∨
       (intent = "utterances" ∧ utts ≠ [])) := by
  unfold chat_has_data
  split_ifs with h1 h2 h3
  · subst h1
    simp [List.isEmpty_iff]
  · rcases h2 with h | h <;> subst h <;> simp [h1]
  · subst h3
    simp [List.isEmpty_iff]
  · have h2a : intent ≠ "speakers" := fun he => h2 (Or.inl he)
    have h2b : intent ≠ "sentiment" := fun he => h2 (Or.inr he)
    simp [h1, h2a, h2b, h3]

/-- C7 counterexample: a chat question routed to intent `speakers` over an
empty corpus still yields confidence 0.85, because the dispatched data dict
is a non-empty literal even when no utterances exist — contradicting the
claim that an empty corpus yields 0.3 for every intent. -/
theorem C7_counterexample :
    (process_query "speakers" (some []) "x" none).confidence = 17/20 ∧
    ((17 : ℚ)/20) ≠ 3/10 := by
  constructor
  · show (if chat_has_data "speakers" (search_utterances (some []))
        then (17 : ℚ)/20 else 3/10) = 17/20
    have hd : chat_has_data "speakers" (search_utterances (some [])) = true := by
      simp [chat_has_data, search_utterances]
    rw [if_pos hd]
  · norm_num

/-- C7 (amended): on the success path the confidence is exactly 0.85 or 0.3,
and it is 0.85 iff the intent-specific has-data test passes — for `trends` a
non-empty trend list, for `speakers` and `sentiment` always (their data dict
is a non-empty literal even over an empty corpus), for `utterances` a
non-empty retrieved list, and never for any other intent; in particular the
`trends` intent over an empty corpus yields 0.3.  Total failure of query
processing yields confidence 0.0 with an apology answer and the error
message kept in the `error` field. -/
theorem C7_confidence_rule (intent : String) (backend : Option (List Utterance))
    (ans : String) :
    ((process_query intent backend ans none).confidence = 17/20 ∨
     (process_query intent backend ans none).confidence = 3/10) ∧
    ((process_query intent backend ans none).confidence = 17/20 ↔
      ((intent = "trends" ∧ get_trends (search_utterances backend) ≠ []) ∨
       intent = "speakers" ∨ intent = "sentiment" ∨
       (intent = "utterances" ∧ search_utterances backend ≠ []))) ∧
    (∀ ans2 : String, (process_query "trends" (some []) ans2 none).confidence = 3/10) ∧
    (∀ e : String,
      (process_query intent backend ans (some e)).confidence = 0 ∧
      ((process_query intent backend ans (some e)).error = some e ∨
       (process_query intent backend ans (some e)).error =
         some "Parameter validation error - please rephrase your question")) := by
  have hconf : (process_query intent backend ans none).confidence =
      if chat_has_data intent (search_utterances backend) then (17 : ℚ)/20 else 3/10 := rfl
  refine ⟨?_, ?_, ?_, ?_⟩
  · rw [hconf]
    by_cases hd : chat_has_data intent (search_utterances backend) = true
    · left
      rw [if_pos hd]
    · right
      rw [if_neg hd]
  · rw [hconf]
    by_cases hd : chat_has_data intent (search_utterances backend) = true
    · rw [if_pos hd]
      exact ⟨fun _ => (chat_has_data_iff _ _).mp hd, fun _ => rfl⟩
    · rw [if_neg hd]
      exact ⟨fun he => absurd he (by norm_num),
        fun hr => absurd ((chat_has_data_iff _ _).mpr hr) hd⟩
  · intro ans2
    show (if chat_has_data "trends" (search_utterances (some []))
        then (17 : ℚ)/20 else 3/10) = 3/10
    have hd : chat_has_data "trends" (search_utterances (some [])) = false := by
      simp [chat_has_data, search_utterances, get_trends, topic_accum]
    rw [if_neg (by simp [hd])]
  · intro e
    by_cases hk : containsSubstr (pyLower e) "key must be a string" = true
    · exact ⟨by simp [process_query, hk], Or.inr (by simp [process_query, hk])⟩
    · exact ⟨by simp [process_query, hk], Or.inl (by simp [process_query, hk])⟩

/-- C7 witness: the empty-corpus `trends` question at concrete inputs. -/
theorem C7_witness :
    (process_query "trends" (some []) "no data yet" none).confidence = 3/10 := by
  exact (C7_confidence_rule "trends" (some []) "no data yet").2.2.1 "no data yet"

/-! ## Claim C5: trend aggregation -/

/-- C5 counterexample: for three utterances carrying topic `t` with
sentiment scores 0, 0 and 1, the reported `avg_sentiment` is 0.33 — the mean
rounded to two decimal places — while the arithmetic mean is 1/3, so the
field is not the arithmetic mean as claimed. -/
theorem C5_counterexample :
    (get_trends [{ baseUtterance with topics := ["t"] },
        { baseUtterance with topics := ["t"] },
        { baseUtterance with topics := ["t"], sentiment_score := 1 }]).map
      Trend.avg_sentiment = [33/100] ∧
    ((0 : ℚ) + (0 + (1 + 0))) / 3 = 1/3 ∧
    (33/100 : ℚ) ≠ 1/3 := by
  refine ⟨?_, by norm_num, by norm_num⟩
  simp only [get_trends, topic_accum, add_topics, upsert, bump_topic, baseUtterance,
    List.foldl_cons, List.foldl_nil, mk_trend, List.map_cons, List.map_nil,
    List.mergeSort_singleton, List.take_succ_cons, List.take_nil]
  have hfr : Int.fract ((100 : ℚ)/3) = 1/3 := by
    rw [← Int.self_sub_floor]
    norm_num
  norm_num [pyRound2, roundHalfEven, hfr]

/-- C5 (amended): every entry of the returned trend list reports, for its
topic `t`, `meetings_count` equal to the number of retrieved utterances
whose topic set contains `t`, `avg_sentiment` equal to the arithmetic mean
of those utterances' sentiment scores rounded to two decimal places,
`momentum` determined by the unrounded mean against the ±0.1 thresholds,
and `novelty_score = min(meetings_count/10, 1)`; the list is sorted
descending by `meetings_count` and has at most 10 entries. -/
theorem C5_trend_aggregation (utts : List Utterance)
    (h : ∀ u ∈ utts, u.topics.Nodup) :
    (get_trends utts).length ≤ 10 ∧
    (get_trends utts).Pairwise (fun a b => b.meetings_count ≤ a.meetings_count) ∧
    (∀ tr ∈ get_trends utts, ∃ t : String,
      (∃ u ∈ utts, t ∈ u.topics) ∧
      tr.meetings_count = utts.countP (fun u => decide (t ∈ u.topics)) ∧
      tr.avg_sentiment = pyRound2
        ((((utts.filter (fun u => decide (t ∈ u.topics))).map Utterance.sentiment_score).sum) /
          ((((utts.filter (fun u => decide (t ∈ u.topics))).map Utterance.sentiment_score).length : ℚ))) ∧
      tr.momentum =
        (if ((((utts.filter (fun u => decide (t ∈ u.topics))).map Utterance.sentiment_score).sum) /
            ((((utts.filter (fun u => decide (t ∈ u.topics))).map Utterance.sentiment_score).length : ℚ))) > 1/10
         then "up"
         else if ((((utts.filter (fun u => decide (t ∈ u.topics))).map Utterance.sentiment_score).sum) /
            ((((utts.filter (fun u => decide (t ∈ u.topics))).map Utterance.sentiment_score).length : ℚ))) < -(1/10)
         then "down" else "flat") ∧
      tr.novelty_score = min ((tr.meetings_count : ℚ) / 10) 1) := by
  have hget : get_trends utts =
      (((topic_accum utts).map (fun p => mk_trend p.1 p.2.1 p.2.2)).mergeSort
        (fun a b => decide (b.meetings_count ≤ a.meetings_count))).take 10 := rfl
  refine ⟨?_, ?_, ?_⟩
  · rw [hget]
    exact List.length_take_le 10 _
  · rw [hget]
    refine List.Pairwise.sublist (List.take_sublist _ _) ?_
    have hsorted := @List.sorted_mergeSort Trend
      (fun a b : Trend => decide (b.meetings_count ≤ a.meetings_count))
      (fun a b c h1 h2 => by
        simp only [decide_eq_true_eq] at h1 h2 ⊢
        omega)
      (fun a b => by
        simp only [Bool.or_eq_true, decide_eq_true_eq]
        omega)
      ((topic_accum utts).map (fun p => mk_trend p.1 p.2.1 p.2.2))
    exact hsorted.imp (fun hab => by simpa using hab)
  · intro tr htr
    rw [hget] at htr
    have htr1 := (List.take_sublist 10 _).subset htr
    rw [List.mem_mergeSort] at htr1
    rcases List.mem_map.mp htr1 with ⟨⟨t, cnt, ss⟩, hp, rfl⟩
    have hlook : (topic_accum utts).lookup t = some (cnt, ss) :=
      (mem_iff_lookup_of_nodup (topic_accum_keys_nodup utts) t (cnt, ss)).mp hp
    rw [lookup_topic_accum utts h t] at hlook
    by_cases hz : utts.countP (fun u => decide (t ∈ u.topics)) = 0
    · rw [if_pos hz] at hlook
      exact absurd hlook (by simp)
    · rw [if_neg hz] at hlook
      have hpair := Option.some.inj hlook
      have hcnt : utts.countP (fun u => decide (t ∈ u.topics)) = cnt :=
        congrArg Prod.fst hpair
      have hss : (utts.filter (fun u => decide (t ∈ u.topics))).map
          Utterance.sentiment_score = ss := congrArg Prod.snd hpair
      subst hcnt
      subst hss
      refine ⟨t, ?_, rfl, rfl, rfl, rfl⟩
      have hpos : 0 < utts.countP (fun u => decide (t ∈ u.topics)) :=
        Nat.pos_of_ne_zero hz
      rcases List.countP_pos_iff.mp hpos with ⟨u, hu, hpu⟩
      exact ⟨u, hu, of_decide_eq_true hpu⟩

/-- C5 witness: the amended trend statement at a concrete single-topic
corpus. -/
theorem C5_witness :
    (get_trends [{ baseUtterance with topics := ["t"] }]).length ≤ 10 := by
  exact (C5_trend_aggregation [{ baseUtterance with topics := ["t"] }] (by decide)).1

/-! ## Claim C6: speaker aggregation -/

/-- C6: each speaker row carries at most 3 exemplar quotes, taken in order
from that speaker's first 3 encountered utterances, each quote truncated to
its first 200 characters plus an ellipsis when the content exceeds 200
characters and passed through unchanged otherwise; rows are sorted
descending by `mentions` (that speaker's utterance count) and `speaker_id`
is the lowercased, space-stripped display name prefixed `spk-`. -/
theorem C6_speaker_aggregation (utts : List Utterance) :
    (speaker_results utts).Pairwise (fun a b => b.mentions ≤ a.mentions) ∧
    (∀ r ∈ speaker_results utts, ∃ s : String,
      r.display_name = s ∧
      r.speaker_id = "spk-" ++ removeSpaces (pyLower s) ∧
      r.mentions = utts.countP (fun u => decide (u.speaker = s)) ∧
      r.exemplar_quotes.length ≤ 3 ∧
      r.exemplar_quotes =
        ((utts.filter (fun u => decide (u.speaker = s))).take 3).map mk_quote) ∧
    (∀ c : String, 200 < c.length →
      truncate_quote c = String.mk (c.toList.take 200) ++ "...") ∧
    (∀ c : String, c.length ≤ 200 → truncate_quote c = c) := by
  refine ⟨?_, ?_, ?_, ?_⟩
  · have hsorted := @List.sorted_mergeSort SpeakerResult
      (fun a b : SpeakerResult => decide (b.mentions ≤ a.mentions))
      (fun a b c h1 h2 => by
        simp only [decide_eq_true_eq] at h1 h2 ⊢
        omega)
      (fun a b => by
        simp only [Bool.or_eq_true, decide_eq_true_eq]
        omega)
      ((speaker_accum utts).map format_speaker)
    exact hsorted.imp (fun hab => by simpa using hab)
  · intro r hr
    have hr1 : r ∈ (speaker_accum utts).map format_speaker := by
      have h2 : r ∈ ((speaker_accum utts).map format_speaker).mergeSort
          (fun a b => decide (b.mentions ≤ a.mentions)) := hr
      rwa [List.mem_mergeSort] at h2
    rcases List.mem_map.mp hr1 with ⟨⟨s, d⟩, hp, rfl⟩
    have hlook : (speaker_accum utts).lookup s = some d :=
      (mem_iff_lookup_of_nodup (speaker_accum_keys_nodup utts) s d).mp hp
    rw [lookup_speaker_accum utts s] at hlook
    rcases hfil : utts.filter (fun u => decide (u.speaker = s)) with _ | ⟨u0, l⟩
    · rw [hfil] at hlook
      exact absurd hlook (by simp)
    · rw [hfil] at hlook
      simp only [List.head?_cons, Option.map_some] at hlook
      have hd : speakerRecordFor s (u0 :: l) u0 = d := Option.some.inj hlook
      subst hd
      refine ⟨s, rfl, rfl, ?_, ?_, ?_⟩
      · rw [List.countP_eq_length_filter, hfil]
        rfl
      · show (((u0 :: l).take 3).map mk_quote).length ≤ 3
        simp [List.length_take]
      · rw [hfil]
        rfl
  · intro c hc
    unfold truncate_quote
    rw [if_pos hc]
  · intro c hc
    unfold truncate_quote
    rw [if_neg (by omega)]

/-- C6 witness: the truncation clause at a concrete 201-character content
string. -/
theorem C6_witness :
    truncate_quote (String.mk (List.replicate 201 'a')) =
      String.mk ((String.mk (List.replicate 201 'a')).toList.take 200) ++ "..." := by
  refine (C6_speaker_aggregation []).2.2.1 (String.mk (List.replicate 201 'a')) ?_
  have hlen : (String.mk (List.replicate 201 'a')).length = 201 := by
    show (List.replicate 201 'a').length = 201
    rw [List.length_replicate]
  rw [hlen]
  norm_num

end Townhall
